import Mathlib

/-!
Verification of the transcription/diarization pipeline of
`summarize_rpg_session` (src/transcription.py), as a shallow embedding:
pure Lean functions mirror the Python functions, external service calls
are abstracted as explicit outcome values, and Python `float` timestamps
are modelled as exact rationals.
-/

namespace RPG

/-- Embeds the Python dict `{"start": ..., "end": ..., "speaker": ...}`
(the `end` key is called `stop` here since `end` is a Lean keyword). -/
structure DiarizationSegment where
  start : ℚ
  stop : ℚ
  speaker : String
deriving DecidableEq, Repr

/-! ### transcribe_audio (src/transcription.py lines 65-109) -/

/-- Constant `MAX_RETRIES = 3` from src/transcription.py line 26. -/
def MAX_RETRIES : Nat := 3

/-- Constant `RETRY_DELAY = 2` from src/transcription.py line 27. -/
def RETRY_DELAY : Nat := 2

/-- Outcome of one call to `openai.audio.transcriptions.create`:
either a response whose `text` field is `some` string or `none`
(Python `None`), a raised `openai.RateLimitError`, or any other raised
exception carrying its `str(e)` message. -/
inductive AttemptOutcome where
  | response (text : Option String)
  | rateLimit
  | failure (msg : String)
deriving DecidableEq, Repr

/-- Observable trace of a run of `transcribe_audio`: the returned text or
the raised `TranscriptionError` message, the number of service calls made,
and the `time.sleep` durations in order. -/
structure TranscribeTrace where
  result : Except String String
  attempts : Nat
  waits : List Nat
deriving Repr

/-- Python renders `None` inside an f-string as the string "None". -/
def renderLastError : Option String → String
  | none => "None"
  | some s => s

/-- The `while retries < MAX_RETRIES` loop of `transcribe_audio`
(lines 81-106).  `retries` increases by exactly one on every failing
iteration, so the loop is driven structurally by the remaining fuel
`MAX_RETRIES - retries`; `retries` itself is still threaded through
because the exponential backoff reads it after the increment
(`wait_time = RETRY_DELAY * (2**retries)` at line 99).

The `raise TranscriptionError("Transcription returned None text")` at
line 92 happens inside the `try` block and is caught by the generic
`except Exception` handler at line 103, so a `None` text causes a fixed
delay and a retry with that message as `last_error`. -/
def transcribeLoop (outcomes : Nat → AttemptOutcome) :
    Nat → Nat → Option String → TranscribeTrace
  | 0, _, lastError =>
      { result := Except.error ("Failed to transcribe audio after " ++
          toString MAX_RETRIES ++ " attempts: " ++ renderLastError lastError),
        attempts := 0, waits := [] }
  | fuel + 1, retries, lastError =>
      match outcomes retries with
      | AttemptOutcome.response (some text) =>
          { result := Except.ok text, attempts := 1, waits := [] }
      | AttemptOutcome.response none =>
          let t := transcribeLoop outcomes fuel (retries + 1)
            (some "Transcription returned None text")
          { t with attempts := t.attempts + 1, waits := RETRY_DELAY :: t.waits }
      | AttemptOutcome.rateLimit =>
          let t := transcribeLoop outcomes fuel (retries + 1)
            (some "Rate limit exceeded")
          { t with attempts := t.attempts + 1, waits := RETRY_DELAY * 2 ^ (retries + 1) :: t.waits }
      | AttemptOutcome.failure msg =>
          let t := transcribeLoop outcomes fuel (retries + 1) (some msg)
          { t with attempts := t.attempts + 1, waits := RETRY_DELAY :: t.waits }

/-- `transcribe_audio` (lines 65-109), abstracted over the per-attempt
service outcomes; attempt `k` (0-indexed) observes `outcomes k`. -/
def transcribe_audio (outcomes : Nat → AttemptOutcome) : TranscribeTrace :=
  transcribeLoop outcomes MAX_RETRIES 0 none

/-- Whether one attempt fails (every branch of the loop except returning
the response's `some` text). -/
def attemptFails : AttemptOutcome → Bool
  | AttemptOutcome.response (some _) => false
  | _ => true

/-- The `last_error` value recorded for a failing attempt. -/
def attemptErrorMsg : AttemptOutcome → Option String
  | AttemptOutcome.response none => some "Transcription returned None text"
  | AttemptOutcome.rateLimit => some "Rate limit exceeded"
  | AttemptOutcome.failure msg => some msg
  | AttemptOutcome.response (some _) => none

/-! ### diarize_audio (src/transcription.py lines 112-166): the
re-labelling pass over the raw segments (lines 139-163) -/

/-- Line 141/157: `sorted(list(set(s["speaker"] for s in segments)))`. -/
def sortedUniqueSpeakers (segments : List DiarizationSegment) : List String :=
  ((segments.map (fun s => s.speaker)).dedup).mergeSort (fun a b => a ≤ b)

/-- The deterministic fallback display name `f"Speaker {i+1}"`. -/
def fallbackLabel (i : Nat) : String := "Speaker " ++ toString (i + 1)

/-- The name-mapping dictionary of lines 140-158, keyed by raw label.
Python's `if speaker_names:` is falsy both for `None` and for an empty
list; the non-empty branch takes `speaker_names[i]` when `i` is in
range and `f"Speaker {i+1}"` otherwise (lines 145-150), the falsy
branch maps every label to `f"Speaker {i+1}"` (line 158). -/
def buildNameMapping (speaker_names : Option (List String))
    (unique_speakers : List String) : List (String × String) :=
  match speaker_names with
  | some names =>
      if names.isEmpty then
        unique_speakers.enum.map (fun p => (p.2, fallbackLabel p.1))
      else
        unique_speakers.enum.map (fun p =>
          (p.2, match names[p.1]? with
                | some n => n
                | none => fallbackLabel p.1))
  | none => unique_speakers.enum.map (fun p => (p.2, fallbackLabel p.1))

/-- Lines 153-154 / 160-161: rewrite each segment's `speaker` through the
mapping, in order.  A missing key (Python `KeyError`) is `none`. -/
def relabelSegments (mapping : List (String × String)) :
    List DiarizationSegment → Option (List DiarizationSegment)
  | [] => some []
  | s :: rest => do
      let name ← mapping.lookup s.speaker
      let rest' ← relabelSegments mapping rest
      pure ({ s with speaker := name } :: rest')

/-- The re-labelling part of `diarize_audio` (lines 139-163), taking the
raw segments produced by the diarization model as input. -/
def diarize_audio (speaker_names : Option (List String))
    (segments : List DiarizationSegment) : Option (List DiarizationSegment) :=
  relabelSegments
    (buildNameMapping speaker_names (sortedUniqueSpeakers segments)) segments

/-! ### create_fallback_diarized_transcript (lines 219-258) -/

/-- The fixed note literal appended at line 256 (two adjacent Python
string literals, concatenated). -/
def fallbackNote : String :=
  "[Note: This is a simplified diarization using timestamps only. For a more accurate result, please retry the process.]"

/-- Python's `f"{n:02d}"`: decimal rendering left-padded with zeros to
width 2. -/
def pad2 (n : Int) : String :=
  let s := toString n
  if s.length < 2 then "0" ++ s else s

/-- Line 242: `f"{int(start_time // 60):02d}:{int(start_time % 60):02d}"`.
`start // 60` is the floor of `start / 60`; `start % 60` equals
`start - 60 * (start // 60)`, which lies in `[0, 60)`, so Python's
truncating `int()` is the floor on both operands. -/
def formatTimestamp (start : ℚ) : String :=
  pad2 ⌊start / 60⌋ ++ ":" ++ pad2 ⌊start - 60 * ((⌊start / 60⌋ : Int) : ℚ)⌋

/-- The line emitted at line 246 when the speaker changes. -/
def speakerLine (seg : DiarizationSegment) : String :=
  "\n[" ++ formatTimestamp seg.start ++ "] " ++ seg.speaker ++ ":"

/-- The continuation line emitted at line 250 when the speaker repeats. -/
def continuationLine (seg : DiarizationSegment) : String :=
  "\n[" ++ formatTimestamp seg.start ++ "] "

/-- The loop of lines 232-250: `current_speaker` starts as Python `None`
and every string `speaker` compares unequal to `None`. -/
def fallbackLines : Option String → List DiarizationSegment → List String
  | _, [] => []
  | current_speaker, seg :: rest =>
      if some seg.speaker ≠ current_speaker then
        speakerLine seg :: fallbackLines (some seg.speaker) rest
      else
        continuationLine seg :: fallbackLines current_speaker rest

/-- `create_fallback_diarized_transcript` (lines 219-258): the joined
lines followed by the fixed trailing note.  The `transcript` argument is
accepted but never read by the function body. -/
def create_fallback_diarized_transcript (transcript : String)
    (diarization_segments : List DiarizationSegment) : String :=
  String.join (fallbackLines none diarization_segments) ++ "\n\n" ++ fallbackNote

/-! ### align_transcript_with_diarization (lines 169-216) -/

/-- Outcome of the `openai.chat.completions.create` call at lines 203-208:
a completion whose `message.content` may be `None`, or any raised
exception. -/
inductive AlignOutcome where
  | completion (content : Option String)
  | raises
deriving DecidableEq, Repr

/-- `align_transcript_with_diarization` (lines 169-216), abstracted over
the chat-service outcome: the content when present, otherwise the
deterministic fallback (lines 209-216). -/
def align_transcript_with_diarization (outcome : AlignOutcome)
    (transcript : String) (diarization_segments : List DiarizationSegment) :
    String :=
  match outcome with
  | AlignOutcome.completion (some content) => content
  | AlignOutcome.completion none =>
      create_fallback_diarized_transcript transcript diarization_segments
  | AlignOutcome.raises =>
      create_fallback_diarized_transcript transcript diarization_segments

/-! ### transcribe_and_diarize (lines 261-285) -/

/-- The two typed pipeline errors (lines 31-40). -/
inductive PipelineError where
  | transcription (msg : String)
  | diarization (msg : String)
deriving DecidableEq, Repr

/-- Pipeline stages, recorded in the order they are invoked. -/
inductive Stage where
  | transcription
  | diarization
  | alignment
deriving DecidableEq, Repr

/-- `transcribe_and_diarize` (lines 261-285), abstracted over the results
of the three stages: returns the pipeline result together with the list
of stages actually invoked, in invocation order.  A stage that raises
stops the pipeline there; alignment itself never raises (it is total). -/
def transcribe_and_diarize (transcribeResult : Except String String)
    (diarizeResult : Except String (List DiarizationSegment))
    (alignOutcome : AlignOutcome) :
    Except PipelineError String × List Stage :=
  match transcribeResult with
  | Except.error m => (Except.error (PipelineError.transcription m), [Stage.transcription])
  | Except.ok transcript =>
      match diarizeResult with
      | Except.error m =>
          (Except.error (PipelineError.diarization m),
           [Stage.transcription, Stage.diarization])
      | Except.ok segs =>
          (Except.ok (align_transcript_with_diarization alignOutcome transcript segs),
           [Stage.transcription, Stage.diarization, Stage.alignment])

/-! ### Theorems -/

/-- C10: the fallback output is a function of the segment list alone,
independent of the transcript argument. -/
theorem fallback_independent_of_transcript (t1 t2 : String)
    (segs : List DiarizationSegment) :
    create_fallback_diarized_transcript t1 segs =
      create_fallback_diarized_transcript t2 segs := rfl

/-- C3: whenever the chat service raises or returns a contentless
response, `align_transcript_with_diarization` returns the deterministic
fallback, a string that ends with the exact note literal. -/
theorem align_never_fails (outcome : AlignOutcome) (t : String)
    (segs : List DiarizationSegment)
    (h : ∀ c, outcome ≠ AlignOutcome.completion (some c)) :
    align_transcript_with_diarization outcome t segs =
      create_fallback_diarized_transcript t segs ∧
    ∃ p, align_transcript_with_diarization outcome t segs = p ++ fallbackNote := by
  have hres : align_transcript_with_diarization outcome t segs =
      create_fallback_diarized_transcript t segs := by
    cases outcome with
    | completion c =>
        cases c with
        | none => rfl
        | some s => exact absurd rfl (h s)
    | raises => rfl
  refine ⟨hres, String.join (fallbackLines none segs) ++ "\n\n", ?_⟩
  rw [hres]
  rfl

/-- C3 witness: a raising service call at a concrete input. -/
theorem align_never_fails_witness :
    align_transcript_with_diarization AlignOutcome.raises "" [] =
      create_fallback_diarized_transcript "" [] ∧
    ∃ p, align_transcript_with_diarization AlignOutcome.raises "" [] =
      p ++ fallbackNote :=
  align_never_fails AlignOutcome.raises "" []
    (fun c h => AlignOutcome.noConfusion h)

/-- C7: the orchestrator runs transcription, diarization, alignment in
that fixed order; it propagates the first stage's error unchanged and
invokes no later stage after a failure, and only when both fallible
stages succeed does it return the aligned transcript. -/
theorem orchestrator_order_and_propagation (tr : Except String String)
    (di : Except String (List DiarizationSegment)) (al : AlignOutcome) :
    (∀ m, tr = Except.error m →
      transcribe_and_diarize tr di al =
        (Except.error (PipelineError.transcription m), [Stage.transcription])) ∧
    (∀ t m, tr = Except.ok t → di = Except.error m →
      transcribe_and_diarize tr di al =
        (Except.error (PipelineError.diarization m),
         [Stage.transcription, Stage.diarization])) ∧
    (∀ t segs, tr = Except.ok t → di = Except.ok segs →
      transcribe_and_diarize tr di al =
        (Except.ok (align_transcript_with_diarization al t segs),
         [Stage.transcription, Stage.diarization, Stage.alignment])) := by
  refine ⟨?_, ?_, ?_⟩
  · intro m hm; subst hm; rfl
  · intro t m ht hd; subst ht; subst hd; rfl
  · intro t segs ht hd; subst ht; subst hd; rfl

/-- C7 witness: transcription failure at a concrete input short-circuits
the pipeline. -/
theorem orchestrator_order_and_propagation_witness :
    transcribe_and_diarize (Except.error "boom") (Except.ok [])
        AlignOutcome.raises =
      (Except.error (PipelineError.transcription "boom"),
       [Stage.transcription]) :=
  (orchestrator_order_and_propagation (Except.error "boom") (Except.ok [])
    AlignOutcome.raises).1 "boom" rfl

/-- When every attempt in the remaining budget fails, the loop uses up
exactly its budget and raises with the last attempt's failure message
embedded (or the inherited `last_error` when the budget is already 0). -/
theorem transcribeLoop_all_fail (outcomes : Nat → AttemptOutcome) :
    ∀ fuel retries lastError,
    (∀ k, retries ≤ k → k < retries + fuel → attemptFails (outcomes k) = true) →
    (transcribeLoop outcomes fuel retries lastError).attempts = fuel ∧
    (transcribeLoop outcomes fuel retries lastError).result =
      Except.error ("Failed to transcribe audio after 3 attempts: " ++
        renderLastError (if fuel = 0 then lastError
          else attemptErrorMsg (outcomes (retries + fuel - 1)))) := by
  intro fuel
  induction fuel with
  | zero => intro retries lastError _; exact ⟨rfl, rfl⟩
  | succ fuel ih =>
      intro retries lastError hfail
      have hthis : attemptFails (outcomes retries) = true :=
        hfail retries le_rfl (by omega)
      have hrest : ∀ k, retries + 1 ≤ k → k < retries + 1 + fuel →
          attemptFails (outcomes k) = true := fun k h1 h2 => hfail k (by omega) (by omega)
      rcases hout : outcomes retries with text | _ | msg
      · rcases text with _ | t
        · have hih := ih (retries + 1) (some "Transcription returned None text") hrest
          simp only [transcribeLoop, hout]
          refine ⟨by simpa using hih.1, ?_⟩
          rw [hih.2]
          rcases Nat.eq_zero_or_pos fuel with hf | hf
          · subst hf; simp [hout, attemptErrorMsg]
          · rw [if_neg (by omega : ¬fuel = 0), if_neg (by omega : ¬fuel + 1 = 0),
              show retries + 1 + fuel - 1 = retries + (fuel + 1) - 1 by omega]
        · rw [hout] at hthis; simp [attemptFails] at hthis
      · have hih := ih (retries + 1) (some "Rate limit exceeded") hrest
        simp only [transcribeLoop, hout]
        refine ⟨by simpa using hih.1, ?_⟩
        rw [hih.2]
        rcases Nat.eq_zero_or_pos fuel with hf | hf
        · subst hf; simp [hout, attemptErrorMsg]
        · rw [if_neg (by omega : ¬fuel = 0), if_neg (by omega : ¬fuel + 1 = 0),
            show retries + 1 + fuel - 1 = retries + (fuel + 1) - 1 by omega]
      · have hih := ih (retries + 1) (some msg) hrest
        simp only [transcribeLoop, hout]
        refine ⟨by simpa using hih.1, ?_⟩
        rw [hih.2]
        rcases Nat.eq_zero_or_pos fuel with hf | hf
        · subst hf; simp [hout, attemptErrorMsg]
        · rw [if_neg (by omega : ¬fuel = 0), if_neg (by omega : ¬fuel + 1 = 0),
            show retries + 1 + fuel - 1 = retries + (fuel + 1) - 1 by omega]

/-- C4: when every attempt raises the rate-limit condition,
`transcribe_audio` makes exactly 3 attempts and raises a
`TranscriptionError` whose message embeds the last failure reason
"Rate limit exceeded". -/
theorem transcribe_rate_limited_exhausts (outcomes : Nat → AttemptOutcome)
    (h : ∀ k, k < MAX_RETRIES → outcomes k = AttemptOutcome.rateLimit) :
    (transcribe_audio outcomes).attempts = 3 ∧
    (transcribe_audio outcomes).result =
      Except.error ("Failed to transcribe audio after 3 attempts: " ++
        "Rate limit exceeded") := by
  have hall : ∀ k, 0 ≤ k → k < 0 + MAX_RETRIES → attemptFails (outcomes k) = true := by
    intro k _ hk
    rw [h k (by simpa using hk)]
    rfl
  have hmain := transcribeLoop_all_fail outcomes MAX_RETRIES 0 none hall
  have h2 := hmain.2
  rw [h (0 + MAX_RETRIES - 1) (by decide)] at h2
  refine ⟨hmain.1, ?_⟩
  show (transcribeLoop outcomes MAX_RETRIES 0 none).result = _
  rw [h2]
  rfl

/-- C4 witness: a concrete always-rate-limited outcome stream. -/
theorem transcribe_rate_limited_exhausts_witness :
    (transcribe_audio (fun _ => AttemptOutcome.rateLimit)).attempts = 3 ∧
    (transcribe_audio (fun _ => AttemptOutcome.rateLimit)).result =
      Except.error ("Failed to transcribe audio after 3 attempts: " ++
        "Rate limit exceeded") :=
  transcribe_rate_limited_exhausts (fun _ => AttemptOutcome.rateLimit)
    (fun _ _ => rfl)

/-- C5 counterexample: a response whose `text` field is the empty string
is returned as-is on the first attempt — the code only treats a `None`
text as an error (line 91), so `transcribe_audio` does return the empty
string, contrary to the claim. -/
theorem transcribe_empty_text_returned :
    (transcribe_audio (fun _ => AttemptOutcome.response (some ""))).result =
      Except.ok "" ∧
    (transcribe_audio (fun _ => AttemptOutcome.response (some ""))).attempts = 1 :=
  ⟨rfl, rfl⟩

/-- C5 amended: a response whose `text` field is absent (`None`) is
treated as an error and retried under the same 3-attempt budget, raising
after exhaustion with that reason embedded; a response whose `text` is
the empty string, however, is returned as-is. -/
theorem transcribe_none_text_retries (outcomes : Nat → AttemptOutcome)
    (h : ∀ k, k < MAX_RETRIES → outcomes k = AttemptOutcome.response none) :
    ((transcribe_audio outcomes).attempts = 3 ∧
     (transcribe_audio outcomes).result =
       Except.error ("Failed to transcribe audio after 3 attempts: " ++
         "Transcription returned None text")) ∧
    (transcribe_audio (fun _ => AttemptOutcome.response (some ""))).result =
      Except.ok "" := by
  have hall : ∀ k, 0 ≤ k → k < 0 + MAX_RETRIES → attemptFails (outcomes k) = true := by
    intro k _ hk
    rw [h k (by simpa using hk)]
    rfl
  have hmain := transcribeLoop_all_fail outcomes MAX_RETRIES 0 none hall
  have h2 := hmain.2
  rw [h (0 + MAX_RETRIES - 1) (by decide)] at h2
  refine ⟨⟨hmain.1, ?_⟩, rfl⟩
  show (transcribeLoop outcomes MAX_RETRIES 0 none).result = _
  rw [h2]
  rfl

/-- C5 amended witness: the always-`None`-text outcome stream. -/
theorem transcribe_none_text_retries_witness :
    (((transcribe_audio (fun _ => AttemptOutcome.response none)).attempts = 3 ∧
      (transcribe_audio (fun _ => AttemptOutcome.response none)).result =
        Except.error ("Failed to transcribe audio after 3 attempts: " ++
          "Transcription returned None text")) ∧
     (transcribe_audio (fun _ => AttemptOutcome.response (some ""))).result =
       Except.ok "") :=
  transcribe_none_text_retries (fun _ => AttemptOutcome.response none)
    (fun _ _ => rfl)

/-- The wait recorded for the `j`-th failing attempt (0-indexed) of the
loop: exponential for a rate limit, the fixed delay otherwise. -/
theorem transcribeLoop_waits (outcomes : Nat → AttemptOutcome) :
    ∀ fuel retries lastError j,
    j < (transcribeLoop outcomes fuel retries lastError).waits.length →
    (transcribeLoop outcomes fuel retries lastError).waits[j]? =
      some (if outcomes (retries + j) = AttemptOutcome.rateLimit
        then RETRY_DELAY * 2 ^ (retries + j + 1) else RETRY_DELAY) := by
  intro fuel
  induction fuel with
  | zero => intro retries lastError j hj; simp [transcribeLoop] at hj
  | succ fuel ih =>
      intro retries lastError j hj
      rcases hout : outcomes retries with text | _ | msg
      · rcases text with _ | t
        · simp only [transcribeLoop, hout] at hj ⊢
          rcases j with _ | j
          · rw [List.getElem?_cons_zero]
            simp [hout]
          · rw [List.getElem?_cons_succ]
            have hj' : j < (transcribeLoop outcomes fuel (retries + 1)
                (some "Transcription returned None text")).waits.length := by
              simp only [List.length_cons] at hj; omega
            rw [ih (retries + 1) (some "Transcription returned None text") j hj',
              show retries + 1 + j = retries + (j + 1) by omega]
        · simp only [transcribeLoop, hout] at hj
          simp at hj
      · simp only [transcribeLoop, hout] at hj ⊢
        rcases j with _ | j
        · rw [List.getElem?_cons_zero]
          simp [hout]
        · rw [List.getElem?_cons_succ]
          have hj' : j < (transcribeLoop outcomes fuel (retries + 1)
              (some "Rate limit exceeded")).waits.length := by
            simp only [List.length_cons] at hj; omega
          rw [ih (retries + 1) (some "Rate limit exceeded") j hj',
            show retries + 1 + j = retries + (j + 1) by omega]
      · simp only [transcribeLoop, hout] at hj ⊢
        rcases j with _ | j
        · rw [List.getElem?_cons_zero]
          simp [hout]
        · rw [List.getElem?_cons_succ]
          have hj' : j < (transcribeLoop outcomes fuel (retries + 1)
              (some msg)).waits.length := by
            simp only [List.length_cons] at hj; omega
          rw [ih (retries + 1) (some msg) j hj',
            show retries + 1 + j = retries + (j + 1) by omega]

/-- C8: in `transcribe_audio`, the `j`-th recorded wait (the delay after
attempt number `k = j + 1`) is `RETRY_DELAY * 2 ^ k` after a rate-limit
condition, and the fixed `RETRY_DELAY = 2` after any other failure. -/
theorem transcribe_backoff_policy (outcomes : Nat → AttemptOutcome) (j : Nat)
    (h : j < (transcribe_audio outcomes).waits.length) :
    (transcribe_audio outcomes).waits[j]? =
      some (if outcomes j = AttemptOutcome.rateLimit
        then RETRY_DELAY * 2 ^ (j + 1) else RETRY_DELAY) := by
  have := transcribeLoop_waits outcomes MAX_RETRIES 0 none j h
  simpa using this

/-- C8 witness: first attempt rate-limited (wait `2 * 2 ^ 1 = 4`), second
attempt a generic failure (wait `2`). -/
theorem transcribe_backoff_policy_witness :
    (transcribe_audio (fun k => if k = 0 then AttemptOutcome.rateLimit
        else AttemptOutcome.failure "x")).waits[0]? = some 4 ∧
    (transcribe_audio (fun k => if k = 0 then AttemptOutcome.rateLimit
        else AttemptOutcome.failure "x")).waits[1]? = some 2 := by
  have h0 := transcribe_backoff_policy
    (fun k => if k = 0 then AttemptOutcome.rateLimit
      else AttemptOutcome.failure "x") 0 (by decide)
  have h1 := transcribe_backoff_policy
    (fun k => if k = 0 then AttemptOutcome.rateLimit
      else AttemptOutcome.failure "x") 1 (by decide)
  rw [h0, h1]
  exact ⟨by decide, by decide⟩

/-- Looking up the `i`-th element of a duplicate-free key list in the
association list that pairs each key with a function of its index finds
exactly the `i`-th entry. -/
theorem lookup_enumFrom_map (f : Nat → String → String) :
    ∀ (l : List String), l.Nodup → ∀ (n i : Nat) (h : i < l.length),
    ((List.enumFrom n l).map (fun p => (p.2, f p.1 p.2))).lookup l[i] =
      some (f (n + i) l[i]) := by
  intro l
  induction l with
  | nil => intro _ n i h; exact absurd h (by simp)
  | cons a as ih =>
      intro hnd n i h
      rcases i with _ | i
      · simp [List.enumFrom_cons, List.lookup]
      · have hlt : i < as.length := by simpa using h
        have hmem : as[i] ∈ as := List.getElem_mem _
        have hne : as[i] ≠ a := by
          intro hc
          exact (List.nodup_cons.mp hnd).1 (hc ▸ hmem)
        have hbeq : (as[i] == a) = false := beq_eq_false_iff_ne.mpr hne
        simp only [List.enumFrom_cons, List.map_cons, List.getElem_cons_succ,
          List.lookup_cons, hbeq]
        rw [show n + (i + 1) = n + 1 + i by omega]
        exact ih (List.nodup_cons.mp hnd).2 (n + 1) i (by simpa using h)

/-- The keys of the name mapping are exactly the unique-speaker list. -/
theorem buildNameMapping_keys (speaker_names : Option (List String))
    (unique_speakers : List String) :
    (buildNameMapping speaker_names unique_speakers).map Prod.fst =
      unique_speakers := by
  have he : ∀ f : Nat → String → String,
      ((unique_speakers.enum.map (fun p => (p.2, f p.1 p.2))).map Prod.fst) =
        unique_speakers := by
    intro f
    rw [List.map_map]
    have : (Prod.fst ∘ fun p : Nat × String => (p.2, f p.1 p.2)) = Prod.snd := by
      funext p
      rfl
    rw [this]
    exact List.enum_map_snd unique_speakers
  rcases speaker_names with _ | names
  · simp only [buildNameMapping]
    exact he (fun j _ => fallbackLabel j)
  · by_cases hemp : names.isEmpty
    · simp only [buildNameMapping, hemp, if_true]
      exact he (fun j _ => fallbackLabel j)
    · simp only [buildNameMapping, hemp, Bool.false_eq_true, if_false]
      exact he (fun j s => match names[j]? with
                           | some n => n
                           | none => fallbackLabel j)

/-- A key that occurs among an association list's keys can be looked up. -/
theorem lookup_isSome_of_mem_keys {l : List (String × String)} {k : String}
    (h : k ∈ l.map Prod.fst) : (l.lookup k).isSome = true := by
  induction l with
  | nil => simp at h
  | cons p rest ih =>
      rcases p with ⟨k0, v0⟩
      by_cases hk : k = k0
      · subst hk
        simp [List.lookup_cons]
      · have hmem : k ∈ rest.map Prod.fst := by
          simpa [hk] using h
        have hbeq : (k == k0) = false := beq_eq_false_iff_ne.mpr hk
        simpa [List.lookup_cons, hbeq] using ih hmem

/-- Every speaker occurring in the segments occurs in the sorted
unique-speaker list. -/
theorem speaker_mem_sortedUnique {segs : List DiarizationSegment}
    {s : DiarizationSegment} (h : s ∈ segs) :
    s.speaker ∈ sortedUniqueSpeakers segs := by
  have h1 : s.speaker ∈ segs.map (fun t => t.speaker) :=
    List.mem_map_of_mem _ h
  have h2 : s.speaker ∈ (segs.map (fun t => t.speaker)).dedup :=
    List.mem_dedup.mpr h1
  exact ((List.mergeSort_perm _ _).mem_iff).mpr h2

/-- The sorted unique-speaker list has no duplicates. -/
theorem sortedUniqueSpeakers_nodup (segs : List DiarizationSegment) :
    (sortedUniqueSpeakers segs).Nodup :=
  ((List.mergeSort_perm _ _).nodup_iff).mpr (List.nodup_dedup _)

/-- Re-labelling succeeds whenever every segment's speaker can be looked
up in the mapping. -/
theorem relabelSegments_isSome {mapping : List (String × String)}
    {segs : List DiarizationSegment}
    (h : ∀ s ∈ segs, (mapping.lookup s.speaker).isSome = true) :
    (relabelSegments mapping segs).isSome = true := by
  induction segs with
  | nil => simp [relabelSegments]
  | cons s rest ih =>
      obtain ⟨name, hn⟩ := Option.isSome_iff_exists.mp (h s (by simp))
      obtain ⟨rest', hr⟩ := Option.isSome_iff_exists.mp
        (ih (fun t ht => h t (by simp [ht])))
      simp [relabelSegments, hn, hr]

/-- C9: the name mapping covers exactly the unique raw labels of the
segments, so the re-labelling lookup is defined for every segment and
`diarize_audio`'s re-labelling pass can never fail with a missing key. -/
theorem diarize_relabel_total (speaker_names : Option (List String))
    (segs : List DiarizationSegment) :
    (diarize_audio speaker_names segs).isSome = true := by
  apply relabelSegments_isSome
  intro s hs
  apply lookup_isSome_of_mem_keys
  rw [buildNameMapping_keys]
  exact speaker_mem_sortedUnique hs

/-- C1: the `i`-th sorted unique raw label is mapped to the `i`-th
supplied name when `i` is within the supplied names, and to the
1-indexed positional fallback `"Speaker {i+1}"` otherwise; with no
names supplied every sorted unique label gets the same fallback rule. -/
theorem name_mapping_assignment (segs : List DiarizationSegment)
    (speaker_names : Option (List String)) (i : Nat)
    (h : i < (sortedUniqueSpeakers segs).length) :
    (buildNameMapping speaker_names (sortedUniqueSpeakers segs)).lookup
        (sortedUniqueSpeakers segs)[i] =
      some (match speaker_names with
            | some names =>
                if hn : i < names.length then names[i] else fallbackLabel i
            | none => fallbackLabel i) := by
  have hnd := sortedUniqueSpeakers_nodup segs
  rcases speaker_names with _ | names
  · have hred : buildNameMapping none (sortedUniqueSpeakers segs) =
        (List.enumFrom 0 (sortedUniqueSpeakers segs)).map
          (fun p => (p.2, fallbackLabel p.1)) := by
      simp [buildNameMapping, List.enum]
    rw [hred, lookup_enumFrom_map (fun j _ => fallbackLabel j)
      (sortedUniqueSpeakers segs) hnd 0 i h]
    simp
  · by_cases hemp : names.isEmpty
    · have hnames : names = [] := List.isEmpty_iff.mp hemp
      subst hnames
      have hred : buildNameMapping (some []) (sortedUniqueSpeakers segs) =
          (List.enumFrom 0 (sortedUniqueSpeakers segs)).map
            (fun p => (p.2, fallbackLabel p.1)) := by
        simp [buildNameMapping, List.enum]
      rw [hred, lookup_enumFrom_map (fun j _ => fallbackLabel j)
        (sortedUniqueSpeakers segs) hnd 0 i h]
      simp
    · have hred : buildNameMapping (some names) (sortedUniqueSpeakers segs) =
          (List.enumFrom 0 (sortedUniqueSpeakers segs)).map
            (fun p => (p.2, match names[p.1]? with
                            | some n => n
                            | none => fallbackLabel p.1)) := by
        simp [buildNameMapping, hemp, List.enum]
      rw [hred, lookup_enumFrom_map
        (fun j _ => match names[j]? with
                    | some n => n
                    | none => fallbackLabel j)
        (sortedUniqueSpeakers segs) hnd 0 i h]
      simp only [Nat.zero_add]
      by_cases hi : i < names.length
      · rw [List.getElem?_eq_getElem hi]
        simp [hi]
      · rw [List.getElem?_eq_none (by omega)]
        simp [hi]

/-- Evaluation principle for `sortedUniqueSpeakers` on concrete inputs:
any sorted list with the same elements as the deduplicated speaker list
is the result (merge sort output is the unique sorted permutation). -/
theorem sortedUniqueSpeakers_eq {segs : List DiarizationSegment}
    {target : List String}
    (hperm : ((segs.map (fun s => s.speaker)).dedup).Perm target)
    (hsorted : target.Sorted (fun a b : String => a ≤ b)) :
    sortedUniqueSpeakers segs = target := by
  refine List.eq_of_perm_of_sorted ((List.mergeSort_perm _ _).trans hperm) ?_ hsorted
  have hp := @List.sorted_mergeSort String
    (fun a b : String => decide (a ≤ b))
    (fun a b c hab hbc => decide_eq_true
      (le_trans (of_decide_eq_true hab) (of_decide_eq_true hbc)))
    (fun a b => by
      rcases le_total a b with hle | hle
      · simp only [decide_eq_true hle, Bool.true_or]
      · simp only [decide_eq_true hle, Bool.or_true])
    ((segs.map (fun s => s.speaker)).dedup)
  exact List.Pairwise.imp (fun hab => of_decide_eq_true hab) hp

/-- The segments used as the C1 witness: three raw labels, listed out of
sorted order to exercise the sorting. -/
def demoSegsC1 : List DiarizationSegment :=
  [⟨0, 1, "SPEAKER_01"⟩, ⟨1, 2, "SPEAKER_00"⟩, ⟨2, 3, "SPEAKER_02"⟩]

/-- C1 witness: with names `["Alice", "Bob"]` and raw labels
`SPEAKER_00 / SPEAKER_01 / SPEAKER_02`, the third sorted label maps to
`"Speaker 3"`. -/
theorem name_mapping_assignment_witness :
    ∃ h : 2 < (sortedUniqueSpeakers demoSegsC1).length,
      (buildNameMapping (some ["Alice", "Bob"])
          (sortedUniqueSpeakers demoSegsC1)).lookup
        (sortedUniqueSpeakers demoSegsC1)[2] = some "Speaker 3" := by
  have hsus : sortedUniqueSpeakers demoSegsC1 =
      ["SPEAKER_00", "SPEAKER_01", "SPEAKER_02"] :=
    sortedUniqueSpeakers_eq (by decide)
      (by simp [List.sorted_cons]; decide)
  refine ⟨by rw [hsus]; decide, ?_⟩
  have h := name_mapping_assignment demoSegsC1 (some ["Alice", "Bob"]) 2
    (by rw [hsus]; decide)
  rw [h]
  rfl

/-- A successful re-labelling pass rewrites only the `speaker` field:
the `start`/`stop` pairs come out unchanged, in order. -/
theorem relabelSegments_shape {mapping : List (String × String)} :
    ∀ {segs out : List DiarizationSegment},
    relabelSegments mapping segs = some out →
    out.map (fun s => (s.start, s.stop)) = segs.map (fun s => (s.start, s.stop)) := by
  intro segs
  induction segs with
  | nil =>
      intro out h
      simp only [relabelSegments, Option.some.injEq] at h
      subst h
      rfl
  | cons s rest ih =>
      intro out h
      simp only [relabelSegments] at h
      cases hl : mapping.lookup s.speaker with
      | none => rw [hl] at h; simp at h
      | some name =>
          rw [hl] at h
          cases hr : relabelSegments mapping rest with
          | none => rw [hr] at h; simp at h
          | some rest' =>
              rw [hr] at h
              simp only [Option.bind_eq_bind, Option.some_bind,
                Option.pure_def, Option.some.injEq] at h
              subst h
              simp [ih hr]

/-- C2: the output of `diarize_audio` keeps every segment's `start` and
`stop` in place (only `speaker` is rewritten), so a segment list sorted
by `start` stays sorted by `start` after re-labelling. -/
theorem diarize_preserves_order (speaker_names : Option (List String))
    (segs out : List DiarizationSegment)
    (h : diarize_audio speaker_names segs = some out) :
    out.map (fun s => (s.start, s.stop)) = segs.map (fun s => (s.start, s.stop)) ∧
    (segs.Pairwise (fun a b => a.start ≤ b.start) →
      out.Pairwise (fun a b => a.start ≤ b.start)) := by
  have hmap := relabelSegments_shape h
  refine ⟨hmap, fun hs => ?_⟩
  have hstart : out.map (fun s => s.start) = segs.map (fun s => s.start) := by
    have := congrArg (List.map Prod.fst) hmap
    simpa [List.map_map, Function.comp] using this
  have hp : (out.map (fun s => s.start)).Pairwise (· ≤ ·) := by
    rw [hstart]
    exact List.pairwise_map.mpr hs
  exact List.pairwise_map.mp hp

/-- Input segments for the C2 witness, sorted by `start`. -/
def demoSegsC2 : List DiarizationSegment := [⟨0, 1, "b"⟩, ⟨2, 3, "a"⟩]

/-- Output segments of the C2 witness run. -/
def demoSegsC2out : List DiarizationSegment :=
  [⟨0, 1, "Speaker 2"⟩, ⟨2, 3, "Speaker 1"⟩]

/-- C2 witness: a concrete re-labelling run that keeps order and
timestamps. -/
theorem diarize_preserves_order_witness :
    diarize_audio none demoSegsC2 = some demoSegsC2out ∧
    (demoSegsC2out.map (fun s => (s.start, s.stop)) =
      demoSegsC2.map (fun s => (s.start, s.stop)) ∧
     (demoSegsC2.Pairwise (fun a b => a.start ≤ b.start) →
       demoSegsC2out.Pairwise (fun a b => a.start ≤ b.start))) := by
  have hsus : sortedUniqueSpeakers demoSegsC2 = ["a", "b"] :=
    sortedUniqueSpeakers_eq (by decide) (by simp [List.sorted_cons]; decide)
  have h : diarize_audio none demoSegsC2 = some demoSegsC2out := by
    unfold diarize_audio
    rw [hsus]
    rfl
  exact ⟨h, diarize_preserves_order none demoSegsC2 demoSegsC2out h⟩

/-- One unfolding step of the fallback loop: the emitted head line is
the speaker line exactly when the speaker differs from the running
`current_speaker`, and the loop continues with the segment's speaker as
the new `current_speaker` either way (on the else-branch they already
coincide). -/
theorem fallbackLines_cons (cur : Option String) (s : DiarizationSegment)
    (rest : List DiarizationSegment) :
    fallbackLines cur (s :: rest) =
      (if some s.speaker ≠ cur then speakerLine s else continuationLine s) ::
        fallbackLines (some s.speaker) rest := by
  by_cases h : some s.speaker ≠ cur
  · simp only [fallbackLines]
    rw [if_pos h, if_pos h]
  · have heq : some s.speaker = cur := not_not.mp h
    simp only [fallbackLines]
    rw [if_neg h, if_neg h, ← heq]

/-- The fallback loop emits exactly one line per segment. -/
theorem fallbackLines_length :
    ∀ (segs : List DiarizationSegment) (cur : Option String),
    (fallbackLines cur segs).length = segs.length := by
  intro segs
  induction segs with
  | nil => intro cur; rfl
  | cons s rest ih =>
      intro cur
      rw [fallbackLines_cons]
      simp [ih]

/-- The first emitted line is always a speaker line: `current_speaker`
starts as `None` and no string equals `None`. -/
theorem fallbackLines_head (segs : List DiarizationSegment)
    (seg : DiarizationSegment) (h : segs[0]? = some seg) :
    (fallbackLines none segs)[0]? = some (speakerLine seg) := by
  rcases segs with _ | ⟨s, rest⟩
  · simp at h
  · rw [List.getElem?_cons_zero] at h
    have hs : s = seg := by
      injection h
    subst hs
    rw [fallbackLines_cons, List.getElem?_cons_zero,
      if_pos (by simp : (some s.speaker ≠ none))]

/-- The line emitted for segment `i + 1` is the continuation line when
its speaker equals the previous segment's speaker and the speaker line
otherwise, for any starting `current_speaker`. -/
theorem fallbackLines_getElem_succ :
    ∀ (segs : List DiarizationSegment) (cur : Option String) (i : Nat)
      (seg prev : DiarizationSegment),
    segs[i + 1]? = some seg → segs[i]? = some prev →
    (fallbackLines cur segs)[i + 1]? =
      some (if seg.speaker = prev.speaker then continuationLine seg
        else speakerLine seg) := by
  intro segs
  induction segs with
  | nil => intro cur i seg prev h1 _; simp at h1
  | cons s rest ih =>
      intro cur i seg prev h1 h2
      rw [fallbackLines_cons, List.getElem?_cons_succ]
      rcases i with _ | j
      · rw [List.getElem?_cons_succ] at h1
        rw [List.getElem?_cons_zero] at h2
        have hprev : s = prev := by
          injection h2
        rcases rest with _ | ⟨r0, rest2⟩
        · simp at h1
        · rw [List.getElem?_cons_zero] at h1
          have hseg : r0 = seg := by
            injection h1
          subst hseg
          subst hprev
          rw [fallbackLines_cons, List.getElem?_cons_zero]
          by_cases heq : r0.speaker = s.speaker
          · rw [if_neg (by simp [heq]), if_pos heq]
          · rw [if_pos (by simp [heq]), if_neg heq]
      · rw [List.getElem?_cons_succ] at h1 h2
        exact ih (some s.speaker) j seg prev h1 h2

/-- C6: the fallback pass emits one line per segment, in order; each
line carries the zero-padded whole-second `MM:SS` timestamp of the
segment's `start`; the first line and every line whose speaker differs
from the immediately preceding segment's speaker is the
`"[MM:SS] {speaker}:"` speaker line, and otherwise the `"[MM:SS] "`
continuation line is emitted; the full fallback transcript is these
lines joined, followed by the fixed trailing note. -/
theorem fallback_line_structure (segs : List DiarizationSegment) :
    (fallbackLines none segs).length = segs.length ∧
    (∀ seg, segs[0]? = some seg →
      (fallbackLines none segs)[0]? = some (speakerLine seg)) ∧
    (∀ i seg prev, segs[i + 1]? = some seg → segs[i]? = some prev →
      (fallbackLines none segs)[i + 1]? =
        some (if seg.speaker = prev.speaker then continuationLine seg
          else speakerLine seg)) ∧
    (∀ t, create_fallback_diarized_transcript t segs =
      String.join (fallbackLines none segs) ++ "\n\n" ++ fallbackNote) :=
  ⟨fallbackLines_length segs none,
   fun seg h => fallbackLines_head segs seg h,
   fun i seg prev h1 h2 => fallbackLines_getElem_succ segs none i seg prev h1 h2,
   fun _ => rfl⟩

/-- The segments used as the C6 witness: a segment starting at 65.0
seconds whose speaker `"X"` differs from the previous segment's. -/
def demoSegsC6 : List DiarizationSegment := [⟨0, 1, "Y"⟩, ⟨65, 70, "X"⟩]

/-- C6 witness: the second segment `{start: 65.0, speaker: "X"}` follows
a differently-labelled segment and produces the line `"[01:05] X:"`
(with the leading newline separator of the joined output). -/
theorem fallback_line_structure_witness :
    (fallbackLines none demoSegsC6)[1]? = some "\n[01:05] X:" := by
  have h := (fallback_line_structure demoSegsC6).2.2.1 0
    (⟨65, 70, "X"⟩ : DiarizationSegment) (⟨0, 1, "Y"⟩ : DiarizationSegment)
    rfl rfl
  rw [h, if_neg (by decide : ¬("X" : String) = "Y")]
  have hm : (⌊(65 : ℚ) / 60⌋ : Int) = 1 := by norm_num
  have hs : (⌊(65 : ℚ) - 60 * ((⌊(65 : ℚ) / 60⌋ : Int) : ℚ)⌋ : Int) = 5 := by
    rw [hm]
    norm_num
  simp only [speakerLine, formatTimestamp]
  rw [hs, hm]
  rfl

end RPG
